import Mathlib

/-!
Verification of `cube_helper/cube_loader.py` (repository `cube_helper`).

The module is orchestration glue around the external `iris` library: it
discovers files, loads them through `iris.load_cube` / `iris.load_raw`,
recovers from reconciliation errors (`MergeError`,
`ConstraintMismatchError`) by a permissive raw load, rewrites
partial-date constraints, and sorts the results chronologically.

The external library is modelled abstractly: each file path is mapped to a
`FileEntry` recording the outcome of the four load calls the code can make
on it (`iris.load_cube(path)`, `iris.load_raw(path)`,
`iris.load_cube(path, constraint)`, `iris.load_raw(path, constraint)`).
Cubes carry exactly the metadata the code in scope reads: the
`standard_name` attribute (an optional string; `isinstance(.., str)` is
`Option.isSome`) and the coordinate list with the time-reference flag and
the `units.num2date(0)` origin.

Python exceptions are modelled by `Except PyErr`; Python string methods
`endswith` / `startswith` by explicit character-list functions; the
in-place `list.remove`-while-iterating loop of `load_from_filelist` by an
index-based recursion (`pyRemoveLoop`) matching CPython's iterator
semantics, including the element-skipping behaviour after a removal.

CPython's `list.sort(key=k)` computes all keys first and then performs a
stable comparison sort.  The comparison sort is modelled here by a stable
insertion sort (`pySort`); when two keys are `None`, CPython would raise
`TypeError` during comparison, so every theorem below whose conclusion
depends on the relative order produced by the sort carries the hypothesis
that all sort keys are defined, which is the regime where this model and
CPython agree.
-/

namespace CubeHelper

/-- Model of Python `s.startswith(pre)` on explicit character lists:
`listStarts pat cs` holds when `pat` is an initial segment of `cs`. -/
def listStarts : List Char → List Char → Bool
  | [], _ => true
  | _ :: _, [] => false
  | a :: as, b :: bs => a == b && listStarts as bs

/-- Python `s.startswith(pre)`. -/
def pyStartsWith (s pre : String) : Bool :=
  listStarts pre.data s.data

/-- Python `s.endswith(suf)`: the reversed suffix must be an initial
segment of the reversed string. -/
def pyEndsWith (s suf : String) : Bool :=
  listStarts suf.data.reverse s.data.reverse

/-- A Python exception, restricted to the kinds the code in scope can
raise or catch.  `osError` is the `OSError("Constraint could not be
rectified")` raised by `_fix_partial_datetime` (the spec's
`UnsupportedConstraint`); `ioError` stands for any load-time failure other
than the two reconciliation errors (missing file, corrupt file, ...). -/
inductive PyErr where
  | mergeError
  | constraintMismatchError
  | ioError
  | indexError
  | attributeError
  | typeError
  | osError
deriving DecidableEq

/-- The exception classes caught by `except (MergeError,
ConstraintMismatchError)` in `cube_loader.py`. -/
def PyErr.isReconciliation : PyErr → Bool
  | mergeError => true
  | constraintMismatchError => true
  | _ => false

/-- A plain calendar timestamp: the value `datetime(...)` used as a sort
key.  Python `datetime` comparison is lexicographic on these seven
fields. -/
structure PyDate where
  year : Nat
  month : Nat
  day : Nat
  hour : Nat
  minute : Nat
  second : Nat
  microsecond : Nat
deriving DecidableEq

/-- The value `time_coord.units.num2date(0)` seen by `_sort_by_date`:
either already a real `datetime` (`isDatetime`), or a `cftime` object that
is `datetime_compatible` (convertible via `_to_real_datetime`, which keeps
all fields), or neither, in which case only year/month/day survive. -/
structure TimeOrigin where
  isDatetime : Bool
  datetimeCompatible : Bool
  year : Nat
  month : Nat
  day : Nat
  hour : Nat
  minute : Nat
  second : Nat
  microsecond : Nat
deriving DecidableEq

/-- All fields of the origin, as a `PyDate` (the effect of
`_to_real_datetime`, or of the origin already being a `datetime`). -/
def TimeOrigin.toPyDate (o : TimeOrigin) : PyDate :=
  ⟨o.year, o.month, o.day, o.hour, o.minute, o.second, o.microsecond⟩

/-- The `units` object of a coordinate: the code reads
`units.is_time_reference()` and `units.num2date(0)`. -/
structure Units where
  isTimeReference : Bool
  num2dateZero : TimeOrigin
deriving DecidableEq

/-- A cube coordinate; the code in scope only reads its `units`. -/
structure Coord where
  units : Units
deriving DecidableEq

/-- An iris cube, restricted to the metadata the loader reads:
`standard_name` (`none` models Python `None`, `some s` a `str`) and the
coordinate list returned by `cube.coords()`. -/
structure Cube where
  standard_name : Option String
  coords : List Coord
deriving DecidableEq

/-- A sparse date: `iris.time.PartialDateTime`, each field `None` or an
integer. -/
structure PartDateTime where
  year : Option Nat
  month : Option Nat
  day : Option Nat
  hour : Option Nat
  minute : Option Nat
  second : Option Nat
  microsecond : Option Nat
deriving DecidableEq

/-- The seven calendar fields of a partial date. -/
inductive DTField where
  | year
  | month
  | day
  | hour
  | minute
  | second
  | microsecond
deriving DecidableEq

/-- Field access on a `PartDateTime`. -/
def PartDateTime.get (p : PartDateTime) : DTField → Option Nat
  | .year => p.year
  | .month => p.month
  | .day => p.day
  | .hour => p.hour
  | .minute => p.minute
  | .second => p.second
  | .microsecond => p.microsecond

/-- The corresponding component of a concrete timestamp (`cell.point.year`
and friends). -/
def PyDate.comp (d : PyDate) : DTField → Nat
  | .year => d.year
  | .month => d.month
  | .day => d.day
  | .hour => d.hour
  | .minute => d.minute
  | .second => d.second
  | .microsecond => d.microsecond

/-- A time cell, as passed to the `lambda cell: ...` predicates built by
`_fix_partial_datetime`; the code reads `cell.point`. -/
structure Cell where
  point : PyDate
deriving DecidableEq

/-- The `time` entry of a constraint's `_coord_values`: either an
`iris.time.PartialDateTime` (`partDT`), a cell-predicate lambda
(`cellFun`, what `_fix_partial_datetime` builds), or some other concrete
value (`concrete`). -/
inductive TimeValue where
  | partDT (p : PartDateTime)
  | cellFun (f : Cell → Bool)
  | concrete (d : PyDate)

/-- An `iris.Constraint` restricted to its time coordinate value, the only
part `_fix_partial_datetime` inspects. -/
structure Constraint where
  time : TimeValue

/-- Python truthiness of an optional integer field: `if x:` is false for
both `None` and `0`. -/
def pyTruthy : Option Nat → Bool
  | none => false
  | some v => v != 0

/-- `_fix_partial_datetime` from `cube_loader.py` (the spec's `rectify`):
if the constraint's time value is a `PartialDateTime`, the first truthy
field among year/month/day/hour/minute/second/microsecond is turned into
an equality predicate on the corresponding component of the cell point;
if no field is truthy the code raises `OSError("Constraint could not be
rectified")`; a non-partial-date constraint is returned unchanged. -/
def fix_part_datetime (constraint : Constraint) : Except PyErr Constraint :=
  match constraint.time with
  | TimeValue.partDT p =>
    if pyTruthy p.year then
      Except.ok ⟨TimeValue.cellFun (fun cell => cell.point.year == p.year.getD 0)⟩
    else if pyTruthy p.month then
      Except.ok ⟨TimeValue.cellFun (fun cell => cell.point.month == p.month.getD 0)⟩
    else if pyTruthy p.day then
      Except.ok ⟨TimeValue.cellFun (fun cell => cell.point.day == p.day.getD 0)⟩
    else if pyTruthy p.hour then
      Except.ok ⟨TimeValue.cellFun (fun cell => cell.point.hour == p.hour.getD 0)⟩
    else if pyTruthy p.minute then
      Except.ok ⟨TimeValue.cellFun (fun cell => cell.point.minute == p.minute.getD 0)⟩
    else if pyTruthy p.second then
      Except.ok ⟨TimeValue.cellFun (fun cell => cell.point.second == p.second.getD 0)⟩
    else if pyTruthy p.microsecond then
      Except.ok ⟨TimeValue.cellFun (fun cell => cell.point.microsecond == p.microsecond.getD 0)⟩
    else
      Except.error PyErr.osError
  | _ => Except.ok constraint

/-- `_parse_directory` from `cube_loader.py`: append a trailing `'/'` when
absent; then, when the result does not start with `'/'`, return it as-is
if `os.path.isdir` holds of it, else prepend `'/'`.  The filesystem probe
`os.path.isdir` is the abstract parameter `isdir` (the code probes the
string with its trailing slash already appended; POSIX `isdir` ignores a
trailing slash). -/
def parse_directory (isdir : String → Bool) (directory : String) : String :=
  let directory2 := if pyEndsWith directory "/" then directory else directory ++ "/"
  if pyStartsWith directory2 "/" = false then
    if isdir directory2 then directory2
    else "/" ++ directory2
  else directory2

/-- The filter loop at the top of `load_from_filelist`:

    for filename in data_filelist:
        if not filename.endswith(filetype):
            data_filelist.remove(filename)

CPython iterates a list with an internal index over the *current* list
state; `remove` deletes the first occurrence of the value.  `i` is that
internal index; the loop ends when it reaches the current length. -/
def pyRemoveLoop (filetype : String) (l : List String) (i : Nat) : List String :=
  if h : i < l.length then
    let filename := l.get ⟨i, h⟩
    if pyEndsWith filename filetype then pyRemoveLoop filetype l (i + 1)
    else pyRemoveLoop filetype (l.erase filename) (i + 1)
  else l
termination_by l.length - i
decreasing_by
  · omega
  · have hmem : l.get ⟨i, h⟩ ∈ l := List.get_mem l i h
    have := List.length_erase_of_mem hmem
    omega

/-- The state of the caller's `data_filelist` after `load_from_filelist`
returns: the filter loop mutates the list in place and the rest of the
function only reads it. -/
def load_from_filelist_post (filetype : String) (data_filelist : List String) : List String :=
  pyRemoveLoop filetype data_filelist 0

/-- Lexicographic comparison of integer lists; models the comparison of
Python `datetime` values through their field tuples. -/
def listLe : List Nat → List Nat → Bool
  | [], _ => true
  | _ :: _, [] => false
  | a :: as, b :: bs => if a < b then true else if b < a then false else listLe as bs

/-- The seven fields of a timestamp, in comparison order. -/
def PyDate.fields (d : PyDate) : List Nat :=
  [d.year, d.month, d.day, d.hour, d.minute, d.second, d.microsecond]

/-- Python `datetime` ordering: lexicographic on the seven fields. -/
def pyDateLe (a b : PyDate) : Bool :=
  listLe a.fields b.fields

/-- Comparison on optional sort keys.  In Python a `None` key raises
`TypeError` as soon as it is compared; the theorems below only use this
order on lists whose keys are all defined, where the `none` clauses never
fire. -/
def optLe : Option PyDate → Option PyDate → Bool
  | none, _ => true
  | some _, none => false
  | some a, some b => pyDateLe a b

/-- One step of a stable insertion sort keyed through `key`: insert `x`
after every element whose key is `≤` its own, exactly where a stable sort
places an element arriving later in the input. -/
def insertByKey {α : Type} (key : α → Option PyDate) (x : α) : List α → List α
  | [] => [x]
  | y :: ys => if optLe (key y) (key x) then y :: insertByKey key x ys else x :: y :: ys

/-- Model of `list.sort(key=key)`'s reordering: a stable comparison sort.
(CPython uses Timsort; every stable sort computes the same output for a
total order on the keys.) -/
def pySort {α : Type} (key : α → Option PyDate) (l : List α) : List α :=
  l.foldl (fun acc x => insertByKey key x acc) []

/-- `_sort_by_date` from `cube_loader.py`: the sort origin of a time
coordinate.  `time_origin = time_coord.units.num2date(0)`; when it is not
a `datetime`, a `datetime_compatible` origin is converted via
`_to_real_datetime` (keeping all fields), otherwise
`datetime(year, month, day)` discards the sub-day fields. -/
def sort_by_date (time_coord : Coord) : PyDate :=
  let time_origin := time_coord.units.num2dateZero
  if time_origin.isDatetime then time_origin.toPyDate
  else if time_origin.datetimeCompatible then time_origin.toPyDate
  else ⟨time_origin.year, time_origin.month, time_origin.day, 0, 0, 0, 0⟩

/-- `sort_by_earliest_date` from `cube_loader.py`: the first coordinate
whose units are a time reference supplies the key via `_sort_by_date`;
with no such coordinate the Python function falls off the end and
returns `None`. -/
def sort_by_earliest_date (cube : Cube) : Option PyDate :=
  (cube.coords.find? (fun time_coord => time_coord.units.isTimeReference)).map sort_by_date

/-- The outcome of the four iris load calls the loader can make on one
path: `iris.load_cube(path)` / `iris.load_raw(path)` without a
constraint, and the same two calls with the (single, fixed) constraint of
the current load request.  `Except.error e` models the call raising `e`;
a raw load yields the raw cube list. -/
structure FileEntry where
  strictNC : Except PyErr Cube
  rawNC : List Cube
  strictC : Except PyErr Cube
  rawC : List Cube

/-- The ambient filesystem and library behaviour a load call runs
against: `os.path.isdir`, `glob.glob`, and the per-path load outcomes. -/
structure FS where
  isdir : String → Bool
  glob : String → List String
  entries : String → FileEntry

/-- `file_sort_by_earliest_date` from `cube_loader.py`: re-load the file
with `iris.load_raw` and take the first cube whose `standard_name` is a
string and which has a time-reference coordinate.  (`iris.load_raw`
always returns a `CubeList`, so the function's `else` branch for a
non-`CubeList` result is unreachable and is not modelled.)  Note the raw
load here never uses the constraint, even when the surrounding load
did. -/
def file_sort_by_earliest_date (entries : String → FileEntry) (cube_filename : String) :
    Option PyDate :=
  (entries cube_filename).rawNC.findSome? (fun cube =>
    if cube.standard_name.isSome then
      (cube.coords.find? (fun time_coord => time_coord.units.isTimeReference)).map sort_by_date
    else none)

/-- An element of the Python list `loaded_cubes`.  The happy paths append
single cubes; the constraint-fallback branch of `load_from_filelist`
appends whole `CubeList` objects (`iris.load_raw(filename, constraint)`),
so the list is heterogeneous. -/
inductive Loaded where
  | cube (c : Cube)
  | cubeList (cs : List Cube)
deriving DecidableEq

/-- The sort key `sort_by_earliest_date` yields on a `loaded_cubes`
element when it does not raise: a `CubeList` element has no `coords`
attribute, so its key is irrelevant (the sort raises first). -/
def Loaded.keyD : Loaded → Option PyDate
  | .cube c => sort_by_earliest_date c
  | .cubeList _ => none

/-- Whether `sort_by_earliest_date` can evaluate on this element:
`cube.coords()` on a `CubeList` raises `AttributeError`. -/
def Loaded.isCube : Loaded → Bool
  | .cube _ => true
  | .cubeList _ => false

/-- `loaded_cubes.sort(key=sort_by_earliest_date)`: CPython computes the
key of every element first — raising `AttributeError` if any element is a
`CubeList` — and then stable-sorts by the keys. -/
def pySortLoaded (l : List Loaded) : Except PyErr (List Loaded) :=
  if l.all Loaded.isCube then Except.ok (pySort Loaded.keyD l)
  else Except.error PyErr.attributeError

/-- One iteration of the no-constraint load loop (shared verbatim by
`load_from_dir` without constraint and `load_from_filelist` without
constraint): try `iris.load_cube(path)`; on `MergeError` or
`ConstraintMismatchError` fall back to `iris.load_raw(path)` and keep
each cube whose `standard_name` is a string, paired with the same path;
any other exception propagates. -/
def load_one_nc (fe : FileEntry) (path : String) :
    Except PyErr (List Loaded × List String) :=
  match fe.strictNC with
  | Except.ok cube => Except.ok ([Loaded.cube cube], [path])
  | Except.error e =>
    if e.isReconciliation then
      Except.ok
        ((fe.rawNC.filter (fun cube => cube.standard_name.isSome)).map Loaded.cube,
         (fe.rawNC.filter (fun cube => cube.standard_name.isSome)).map (fun _ => path))
    else Except.error e

/-- One iteration of the constrained load loop of `load_from_dir`: as
`load_one_nc` but through `iris.load_cube(path, constraint)` /
`iris.load_raw(path, constraint)`; the fallback appends each validly
named raw cube. -/
def load_one_c (fe : FileEntry) (path : String) :
    Except PyErr (List Loaded × List String) :=
  match fe.strictC with
  | Except.ok cube => Except.ok ([Loaded.cube cube], [path])
  | Except.error e =>
    if e.isReconciliation then
      Except.ok
        ((fe.rawC.filter (fun cube => cube.standard_name.isSome)).map Loaded.cube,
         (fe.rawC.filter (fun cube => cube.standard_name.isSome)).map (fun _ => path))
    else Except.error e

/-- One iteration of the constrained load loop of `load_from_filelist`:
identical to `load_one_c` except that in the fallback the code appends
`iris.load_raw(filename, constraint)` — the whole raw `CubeList` — once
per validly named raw cube, instead of the cube itself
(`cube_loader.py` lines 250-255). -/
def load_one_c_list (fe : FileEntry) (path : String) :
    Except PyErr (List Loaded × List String) :=
  match fe.strictC with
  | Except.ok cube => Except.ok ([Loaded.cube cube], [path])
  | Except.error e =>
    if e.isReconciliation then
      Except.ok
        ((fe.rawC.filter (fun cube => cube.standard_name.isSome)).map
           (fun _ => Loaded.cubeList fe.rawC),
         (fe.rawC.filter (fun cube => cube.standard_name.isSome)).map (fun _ => path))
    else Except.error e

/-- The `for path in ...` loop: run `one` on each path in order,
appending to `loaded_cubes` and `cube_files` in lockstep; an uncaught
exception aborts the whole call, discarding partial progress. -/
def collect (one : String → Except PyErr (List Loaded × List String)) :
    List String → Except PyErr (List Loaded × List String)
  | [] => Except.ok ([], [])
  | p :: ps =>
    match one p with
    | Except.error e => Except.error e
    | Except.ok r =>
      match collect one ps with
      | Except.error e => Except.error e
      | Except.ok r2 => Except.ok (r.1 ++ r2.1, r.2 ++ r2.2)

/-- The two final sorts:
`loaded_cubes.sort(key=sort_by_earliest_date)` then
`cube_files.sort(key=file_sort_by_earliest_date)`, performed
independently on the two lists. -/
def finishSort (entries : String → FileEntry) (r : List Loaded × List String) :
    Except PyErr (List Loaded × List String) :=
  match pySortLoaded r.1 with
  | Except.error e => Except.error e
  | Except.ok sortedCubes =>
    Except.ok (sortedCubes, pySort (file_sort_by_earliest_date entries) r.2)

/-- `load_from_dir` from `cube_loader.py`.  Without a constraint: glob
`directory + '*' + filetype` after `_parse_directory`, run the
try/fallback loop on each path, sort both lists.  With a constraint: the
code first evaluates
`_constraint_compatible(constraint, iris.load_cube(cube_paths[0]))` —
`cube_paths[0]` raises `IndexError` on an empty glob, and the
unconstrained strict load of the first path runs outside any `try`, so
any exception it raises propagates; the probe's own result is discarded
(`pass`).  Then the constrained loop runs and both lists are sorted. -/
def load_from_dir (fsys : FS) (directory filetype : String)
    (constraint : Option Constraint) : Except PyErr (List Loaded × List String) :=
  match constraint with
  | none =>
    match collect (fun p => load_one_nc (fsys.entries p) p)
        (fsys.glob (parse_directory fsys.isdir directory ++ "*" ++ filetype)) with
    | Except.error e => Except.error e
    | Except.ok r => finishSort fsys.entries r
  | some _ =>
    match fsys.glob (parse_directory fsys.isdir directory ++ "*" ++ filetype) with
    | [] => Except.error PyErr.indexError
    | p0 :: rest =>
      match (fsys.entries p0).strictNC with
      | Except.error e => Except.error e
      | Except.ok _ =>
        match collect (fun p => load_one_c (fsys.entries p) p) (p0 :: rest) with
        | Except.error e => Except.error e
        | Except.ok r => finishSort fsys.entries r

/-- `load_from_filelist` from `cube_loader.py`: filter the caller's list
in place through the `remove`-while-iterating loop, then run the
per-file loop (the no-constraint iteration, or the constrained
iteration whose fallback appends whole raw cube lists), then sort both
lists. -/
def load_from_filelist (entries : String → FileEntry) (data_filelist : List String)
    (filetype : String) (constraint : Option Constraint) :
    Except PyErr (List Loaded × List String) :=
  match collect
      (fun p =>
        match constraint with
        | none => load_one_nc (entries p) p
        | some _ => load_one_c_list (entries p) p)
      (pyRemoveLoop filetype data_filelist 0) with
  | Except.error e => Except.error e
  | Except.ok r => finishSort entries r

/-- The cube of `/ds/a.nc` in the C1 witness environment: origin 2001. -/
def cubeA : Cube := ⟨some "air", [⟨⟨true, ⟨true, true, 2001, 1, 1, 0, 0, 0, 0⟩⟩⟩]⟩

/-- The cube of `/ds/b.nc` in the C1 witness environment: origin 1999. -/
def cubeB : Cube := ⟨some "rain", [⟨⟨true, ⟨true, true, 1999, 6, 1, 0, 0, 0, 0⟩⟩⟩]⟩

/-- C1 witness environment: a directory with the two files of the spec's
end-to-end scenario, globbed in the unsorted order `[a, b]`. -/
def envC1 : FS :=
  ⟨fun _ => false, fun _ => ["/ds/a.nc", "/ds/b.nc"],
   fun p => if p == "/ds/a.nc" then ⟨Except.ok cubeA, [cubeA], Except.ok cubeA, [cubeA]⟩
     else ⟨Except.ok cubeB, [cubeB], Except.ok cubeB, [cubeB]⟩⟩

/-- The strict-load results in the C1 witness environment. -/
def loadC1 : String → Cube := fun p => if p == "/ds/a.nc" then cubeA else cubeB

/-- C2 counterexample cube: one raw cube behind a constrained strict load
that fails with `ConstraintMismatchError`. -/
def cubeC2 : Cube := ⟨some "air", [⟨⟨true, ⟨true, true, 1850, 1, 1, 0, 0, 0, 0⟩⟩⟩]⟩

/-- C2 counterexample environment: one matching file `a.nc` whose
unconstrained strict load succeeds but whose constrained strict load
raises a reconciliation error, forcing the fallback branch. -/
def envC2 : FS :=
  ⟨fun _ => false, fun _ => ["a.nc"],
   fun _ => ⟨Except.ok cubeC2, [cubeC2], Except.error PyErr.constraintMismatchError, [cubeC2]⟩⟩

/-- The single cube of the C2 witness environment. -/
def cubeW : Cube := ⟨some "air", [⟨⟨true, ⟨true, true, 1970, 1, 1, 0, 0, 0, 0⟩⟩⟩]⟩

/-- C2 witness environment: one matching file `w.nc`, all loads
succeed. -/
def envW : FS :=
  ⟨fun _ => false, fun _ => ["w.nc"],
   fun _ => ⟨Except.ok cubeW, [cubeW], Except.ok cubeW, [cubeW]⟩⟩

theorem pyRemoveLoop_stop {filetype : String} {l : List String} {i : Nat}
    (hi : ¬ i < l.length) : pyRemoveLoop filetype l i = l := by
  rw [pyRemoveLoop]
  simp [hi]

theorem pyRemoveLoop_keep {filetype : String} {l : List String} {i : Nat}
    (h : i < l.length) (hk : pyEndsWith l[i] filetype = true) :
    pyRemoveLoop filetype l i = pyRemoveLoop filetype l (i + 1) := by
  rw [pyRemoveLoop]
  simp [h, hk]

theorem pyRemoveLoop_drop {filetype : String} {l : List String} {i : Nat}
    (h : i < l.length) (hk : pyEndsWith l[i] filetype = false) :
    pyRemoveLoop filetype l i = pyRemoveLoop filetype (l.erase l[i]) (i + 1) := by
  rw [pyRemoveLoop]
  simp [h, hk]

theorem pyRemoveLoop_sublist (filetype : String) :
    ∀ (l : List String) (i : Nat), List.Sublist (pyRemoveLoop filetype l i) l := by
  intro l i
  induction l, i using pyRemoveLoop.induct filetype with
  | case1 l i h filename hends ih =>
    rw [pyRemoveLoop_keep h hends]
    exact ih
  | case2 l i h filename hends ih =>
    rw [pyRemoveLoop_drop h (by simpa using hends)]
    exact ih.trans (List.erase_sublist _ _)
  | case3 l i h =>
    rw [pyRemoveLoop_stop h]

theorem pyRemoveLoop_count_of_endsWith (filetype : String) (x : String)
    (hx : pyEndsWith x filetype = true) :
    ∀ (l : List String) (i : Nat),
      (pyRemoveLoop filetype l i).count x = l.count x := by
  intro l i
  induction l, i using pyRemoveLoop.induct filetype with
  | case1 l i h filename hends ih =>
    rw [pyRemoveLoop_keep h hends]
    exact ih
  | case2 l i h filename hends ih =>
    have hfn : filename = l[i] := rfl
    rw [hfn] at ih hends
    rw [pyRemoveLoop_drop h (by simpa using hends)]
    rw [ih, List.count_erase_of_ne]
    intro hxf
    rw [hxf] at hx
    simp only [Bool.not_eq_true] at hends
    rw [hx] at hends
    cases hends
  | case3 l i h =>
    rw [pyRemoveLoop_stop h]

theorem pyRemoveLoop_id_of_all_match (filetype : String) :
    ∀ (l : List String) (i : Nat),
      (∀ x ∈ l, pyEndsWith x filetype = true) → pyRemoveLoop filetype l i = l := by
  intro l i
  induction l, i using pyRemoveLoop.induct filetype with
  | case1 l i h filename hends ih =>
    intro hall
    rw [pyRemoveLoop_keep h hends]
    exact ih hall
  | case2 l i h filename hends ih =>
    intro hall
    exact absurd (hall _ (l.get_mem i h)) hends
  | case3 l i h =>
    intro _
    rw [pyRemoveLoop_stop h]

theorem listLe_cons_iff {a b : Nat} {as bs : List Nat} :
    listLe (a :: as) (b :: bs) = true ↔ a < b ∨ (a = b ∧ listLe as bs = true) := by
  simp only [listLe]
  by_cases h1 : a < b
  · simp [h1]
  · by_cases h2 : b < a
    · rw [if_neg h1, if_pos h2]
      simp only [Bool.false_eq_true, false_iff]
      intro hf
      rcases hf with hlt | ⟨heq, _⟩ <;> omega
    · have heq : a = b := by omega
      simp [h1, h2, heq]

theorem listLe_total : ∀ xs ys : List Nat, listLe xs ys = true ∨ listLe ys xs = true := by
  intro xs
  induction xs with
  | nil => intro ys; left; rfl
  | cons a as ih =>
    intro ys
    cases ys with
    | nil => right; rfl
    | cons b bs =>
      rw [listLe_cons_iff, listLe_cons_iff]
      rcases Nat.lt_trichotomy a b with h | h | h
      · left; left; exact h
      · rcases ih bs with hr | hr
        · left; right; exact ⟨h, hr⟩
        · right; right; exact ⟨h.symm, hr⟩
      · right; left; exact h

theorem listLe_trans :
    ∀ xs ys zs : List Nat, listLe xs ys = true → listLe ys zs = true → listLe xs zs = true := by
  intro xs
  induction xs with
  | nil => intro ys zs _ _; rfl
  | cons a as ih =>
    intro ys zs hxy hyz
    cases ys with
    | nil => simp [listLe] at hxy
    | cons b bs =>
      cases zs with
      | nil => simp [listLe] at hyz
      | cons c cs =>
        rw [listLe_cons_iff] at hxy hyz ⊢
        rcases hxy with h | ⟨rfl, hxy⟩
        · rcases hyz with h' | ⟨rfl, _⟩
          · left; omega
          · left; exact h
        · rcases hyz with h' | ⟨rfl, hyz⟩
          · left; exact h'
          · right; exact ⟨rfl, ih _ _ hxy hyz⟩

theorem optLe_total : ∀ a b : Option PyDate, optLe a b = true ∨ optLe b a = true := by
  intro a b
  cases a with
  | none => left; rfl
  | some x =>
    cases b with
    | none => right; rfl
    | some y => exact listLe_total x.fields y.fields

theorem optLe_trans :
    ∀ a b c : Option PyDate, optLe a b = true → optLe b c = true → optLe a c = true := by
  intro a b c hab hbc
  cases a with
  | none => rfl
  | some x =>
    cases b with
    | none => simp [optLe] at hab
    | some y =>
      cases c with
      | none => simp [optLe] at hbc
      | some z => exact listLe_trans x.fields y.fields z.fields hab hbc

theorem mem_insertByKey {α : Type} (key : α → Option PyDate) (x : α) :
    ∀ (l : List α) (a : α), a ∈ insertByKey key x l ↔ a = x ∨ a ∈ l := by
  intro l a
  induction l with
  | nil => simp [insertByKey]
  | cons y ys ih =>
    simp only [insertByKey]
    by_cases hc : optLe (key y) (key x) = true
    · rw [if_pos hc]
      simp only [List.mem_cons, ih]
      tauto
    · rw [if_neg hc]
      simp only [List.mem_cons]

theorem insertByKey_perm {α : Type} (key : α → Option PyDate) (x : α) :
    ∀ l : List α, List.Perm (insertByKey key x l) (x :: l) := by
  intro l
  induction l with
  | nil => simp [insertByKey]
  | cons y ys ih =>
    simp only [insertByKey]
    by_cases hc : optLe (key y) (key x) = true
    · rw [if_pos hc]
      exact (ih.cons y).trans (List.Perm.swap x y ys)
    · rw [if_neg hc]

theorem foldl_insert_perm {α : Type} (key : α → Option PyDate) :
    ∀ (l acc : List α),
      List.Perm (l.foldl (fun acc x => insertByKey key x acc) acc) (acc ++ l) := by
  intro l
  induction l with
  | nil => intro acc; simp
  | cons x xs ih =>
    intro acc
    simp only [List.foldl_cons]
    have h1 := ih (insertByKey key x acc)
    have h2 : List.Perm (insertByKey key x acc ++ xs) (acc ++ x :: xs) := by
      have := (insertByKey_perm key x acc).append_right xs
      exact this.trans (List.perm_middle.symm)
    exact h1.trans h2

theorem pySort_perm {α : Type} (key : α → Option PyDate) (l : List α) :
    List.Perm (pySort key l) l := by
  simpa using foldl_insert_perm key l []

theorem pairwise_insertByKey {α : Type} (key : α → Option PyDate) (x : α) (l : List α)
    (hl : l.Pairwise (fun a b => optLe (key a) (key b) = true)) :
    (insertByKey key x l).Pairwise (fun a b => optLe (key a) (key b) = true) := by
  induction l with
  | nil => simp [insertByKey]
  | cons y ys ih =>
    rcases List.pairwise_cons.mp hl with ⟨hy, hys⟩
    simp only [insertByKey]
    by_cases hc : optLe (key y) (key x) = true
    · rw [if_pos hc]
      refine List.pairwise_cons.mpr ⟨?_, ih hys⟩
      intro a ha
      rcases (mem_insertByKey key x ys a).mp ha with rfl | ha
      · exact hc
      · exact hy a ha
    · rw [if_neg hc]
      refine List.pairwise_cons.mpr ⟨?_, hl⟩
      intro a ha
      rcases List.mem_cons.mp ha with rfl | ha
      · rcases optLe_total (key x) (key a) with h | h
        · exact h
        · exact absurd h hc
      · have hxy : optLe (key x) (key y) = true := by
          rcases optLe_total (key x) (key y) with h | h
          · exact h
          · exact absurd h hc
        exact optLe_trans _ _ _ hxy (hy a ha)

theorem pySort_pairwise {α : Type} (key : α → Option PyDate) (l : List α) :
    (pySort key l).Pairwise (fun a b => optLe (key a) (key b) = true) := by
  have main : ∀ (l acc : List α),
      acc.Pairwise (fun a b => optLe (key a) (key b) = true) →
      (l.foldl (fun acc x => insertByKey key x acc) acc).Pairwise
        (fun a b => optLe (key a) (key b) = true) := by
    intro l
    induction l with
    | nil => intro acc h; simpa using h
    | cons x xs ih =>
      intro acc h
      simp only [List.foldl_cons]
      exact ih _ (pairwise_insertByKey key x acc h)
  exact main l [] (by simp)

theorem insertByKey_map {α β : Type} (key : β → Option PyDate) (f : α → β) (x : α) :
    ∀ l : List α,
      insertByKey key (f x) (l.map f) = (insertByKey (fun a => key (f a)) x l).map f := by
  intro l
  induction l with
  | nil => simp [insertByKey]
  | cons y ys ih =>
    simp only [List.map_cons, insertByKey]
    by_cases hc : optLe (key (f y)) (key (f x)) = true
    · rw [if_pos hc, if_pos hc, ih, List.map_cons]
    · rw [if_neg hc, if_neg hc]
      simp

theorem pySort_map {α β : Type} (key : β → Option PyDate) (f : α → β) (l : List α) :
    pySort key (l.map f) = (pySort (fun a => key (f a)) l).map f := by
  have main : ∀ (l acc : List α),
      (l.map f).foldl (fun acc x => insertByKey key x acc) (acc.map f) =
        (l.foldl (fun acc x => insertByKey (fun a => key (f a)) x acc) acc).map f := by
    intro l
    induction l with
    | nil => intro acc; simp
    | cons x xs ih =>
      intro acc
      simp only [List.map_cons, List.foldl_cons]
      rw [insertByKey_map key f x acc]
      exact ih _
  simpa using main l []

theorem insertByKey_congr {α : Type} (k1 k2 : α → Option PyDate) (x : α) :
    ∀ l : List α, k1 x = k2 x → (∀ a ∈ l, k1 a = k2 a) →
      insertByKey k1 x l = insertByKey k2 x l := by
  intro l hx hl
  induction l with
  | nil => simp [insertByKey]
  | cons y ys ih =>
    have hy : k1 y = k2 y := hl y (List.mem_cons_self y ys)
    simp only [insertByKey, hy, hx]
    by_cases hc : optLe (k2 y) (k2 x) = true
    · rw [if_pos hc, if_pos hc, ih (fun a ha => hl a (List.mem_cons_of_mem y ha))]
    · rw [if_neg hc, if_neg hc]

theorem pySort_congr {α : Type} (k1 k2 : α → Option PyDate) (l : List α)
    (h : ∀ a ∈ l, k1 a = k2 a) : pySort k1 l = pySort k2 l := by
  have main : ∀ (l acc : List α), (∀ a ∈ l, k1 a = k2 a) → (∀ a ∈ acc, k1 a = k2 a) →
      l.foldl (fun acc x => insertByKey k1 x acc) acc =
        l.foldl (fun acc x => insertByKey k2 x acc) acc := by
    intro l
    induction l with
    | nil => intro acc _ _; simp
    | cons x xs ih =>
      intro acc hl hacc
      simp only [List.foldl_cons]
      rw [insertByKey_congr k1 k2 x acc (hl x (List.mem_cons_self x xs)) hacc]
      refine ih _ (fun a ha => hl a (List.mem_cons_of_mem x ha)) ?_
      intro a ha
      rcases (mem_insertByKey k2 x acc a).mp ha with rfl | ha
      · exact hl a (List.mem_cons_self a xs)
      · exact hacc a ha
  exact main l [] h (by simp)

/-- C5: for every partial-date constraint in which zero of the fields
year/month/day/hour/minute/second/microsecond are populated, the
constraint rewriter `_fix_partial_datetime` raises its
`OSError("Constraint could not be rectified")` (the spec's
`UnsupportedConstraint`) to the caller immediately. -/
theorem C5_rectify_zero_fields (p : PartDateTime)
    (h : ∀ f : DTField, p.get f = none) :
    fix_part_datetime ⟨TimeValue.partDT p⟩ = Except.error PyErr.osError := by
  have hy : p.year = none := h DTField.year
  have hmo : p.month = none := h DTField.month
  have hd : p.day = none := h DTField.day
  have hh : p.hour = none := h DTField.hour
  have hmi : p.minute = none := h DTField.minute
  have hs : p.second = none := h DTField.second
  have hms : p.microsecond = none := h DTField.microsecond
  simp [fix_part_datetime, pyTruthy, hy, hmo, hd, hh, hmi, hs, hms]

/-- Witness for C5 at the all-`None` partial date. -/
theorem C5_rectify_zero_fields_witness :
    fix_part_datetime ⟨TimeValue.partDT ⟨none, none, none, none, none, none, none⟩⟩ =
      Except.error PyErr.osError :=
  C5_rectify_zero_fields ⟨none, none, none, none, none, none, none⟩
    (fun f => by cases f <;> rfl)

/-- C6 counterexample: the partial date with exactly one populated field
`hour = 0` is rejected (`if part_datetime.hour:` is false for the value
`0`), so `_fix_partial_datetime` raises instead of returning the
predicate the claim promises. -/
theorem C6_cx_hour_zero :
    fix_part_datetime ⟨TimeValue.partDT ⟨none, none, none, some 0, none, none, none⟩⟩ =
      Except.error PyErr.osError := by
  rfl

/-- C6 (amended): for every partial-date constraint with exactly one
populated field whose value is nonzero (Python truthiness: a populated
`0` is treated as unpopulated), `_fix_partial_datetime` returns a
predicate that holds for exactly those time cells whose corresponding
date component equals that field's value; a constraint whose time value
is not a partial date is returned unchanged. -/
theorem C6_rectify_one_field :
    (∀ (p : PartDateTime) (f : DTField) (v : Nat),
        p.get f = some v → (∀ g : DTField, g ≠ f → p.get g = none) → v ≠ 0 →
        ∃ pred : Cell → Bool,
          fix_part_datetime ⟨TimeValue.partDT p⟩ = Except.ok ⟨TimeValue.cellFun pred⟩ ∧
          ∀ cell : Cell, pred cell = true ↔ cell.point.comp f = v)
    ∧ (∀ c : Constraint, (∀ p : PartDateTime, c.time ≠ TimeValue.partDT p) →
        fix_part_datetime c = Except.ok c) := by
  constructor
  · intro p f v hv hnone hvz
    cases f with
    | year =>
      have h1 : p.year = some v := hv
      refine ⟨fun cell => cell.point.year == v, ?_, ?_⟩
      · simp [fix_part_datetime, pyTruthy, h1, hvz]
      · intro cell
        simp [PyDate.comp]
    | month =>
      have h1 : p.month = some v := hv
      have hy : p.year = none := hnone DTField.year (by decide)
      refine ⟨fun cell => cell.point.month == v, ?_, ?_⟩
      · simp [fix_part_datetime, pyTruthy, h1, hy, hvz]
      · intro cell
        simp [PyDate.comp]
    | day =>
      have h1 : p.day = some v := hv
      have hy : p.year = none := hnone DTField.year (by decide)
      have hmo : p.month = none := hnone DTField.month (by decide)
      refine ⟨fun cell => cell.point.day == v, ?_, ?_⟩
      · simp [fix_part_datetime, pyTruthy, h1, hy, hmo, hvz]
      · intro cell
        simp [PyDate.comp]
    | hour =>
      have h1 : p.hour = some v := hv
      have hy : p.year = none := hnone DTField.year (by decide)
      have hmo : p.month = none := hnone DTField.month (by decide)
      have hd : p.day = none := hnone DTField.day (by decide)
      refine ⟨fun cell => cell.point.hour == v, ?_, ?_⟩
      · simp [fix_part_datetime, pyTruthy, h1, hy, hmo, hd, hvz]
      · intro cell
        simp [PyDate.comp]
    | minute =>
      have h1 : p.minute = some v := hv
      have hy : p.year = none := hnone DTField.year (by decide)
      have hmo : p.month = none := hnone DTField.month (by decide)
      have hd : p.day = none := hnone DTField.day (by decide)
      have hh : p.hour = none := hnone DTField.hour (by decide)
      refine ⟨fun cell => cell.point.minute == v, ?_, ?_⟩
      · simp [fix_part_datetime, pyTruthy, h1, hy, hmo, hd, hh, hvz]
      · intro cell
        simp [PyDate.comp]
    | second =>
      have h1 : p.second = some v := hv
      have hy : p.year = none := hnone DTField.year (by decide)
      have hmo : p.month = none := hnone DTField.month (by decide)
      have hd : p.day = none := hnone DTField.day (by decide)
      have hh : p.hour = none := hnone DTField.hour (by decide)
      have hmi : p.minute = none := hnone DTField.minute (by decide)
      refine ⟨fun cell => cell.point.second == v, ?_, ?_⟩
      · simp [fix_part_datetime, pyTruthy, h1, hy, hmo, hd, hh, hmi, hvz]
      · intro cell
        simp [PyDate.comp]
    | microsecond =>
      have h1 : p.microsecond = some v := hv
      have hy : p.year = none := hnone DTField.year (by decide)
      have hmo : p.month = none := hnone DTField.month (by decide)
      have hd : p.day = none := hnone DTField.day (by decide)
      have hh : p.hour = none := hnone DTField.hour (by decide)
      have hmi : p.minute = none := hnone DTField.minute (by decide)
      have hs : p.second = none := hnone DTField.second (by decide)
      refine ⟨fun cell => cell.point.microsecond == v, ?_, ?_⟩
      · simp [fix_part_datetime, pyTruthy, h1, hy, hmo, hd, hh, hmi, hs, hvz]
      · intro cell
        simp [PyDate.comp]
  · intro c hc
    obtain ⟨tv⟩ := c
    cases tv with
    | partDT p => exact absurd rfl (hc p)
    | cellFun f => rfl
    | concrete d => rfl

/-- Witness for C6 (amended): the partial date `month = 2` yields the
month-equality predicate, which accepts a February cell and rejects a
March cell; a non-partial-date constraint passes through unchanged. -/
theorem C6_rectify_one_field_witness :
    (∃ pred : Cell → Bool,
      fix_part_datetime ⟨TimeValue.partDT ⟨none, some 2, none, none, none, none, none⟩⟩ =
        Except.ok ⟨TimeValue.cellFun pred⟩ ∧
      pred ⟨⟨2000, 2, 1, 0, 0, 0, 0⟩⟩ = true ∧ pred ⟨⟨2000, 3, 1, 0, 0, 0, 0⟩⟩ = false)
    ∧ fix_part_datetime ⟨TimeValue.concrete ⟨1850, 1, 1, 0, 0, 0, 0⟩⟩ =
        Except.ok ⟨TimeValue.concrete ⟨1850, 1, 1, 0, 0, 0, 0⟩⟩ := by
  constructor
  · obtain ⟨pred, hok, hiff⟩ :=
      C6_rectify_one_field.1 ⟨none, some 2, none, none, none, none, none⟩ DTField.month 2
        rfl (fun g hg => by cases g <;> first | rfl | exact absurd rfl hg) (by decide)
    refine ⟨pred, hok, (hiff _).mpr rfl, ?_⟩
    have h3 := hiff ⟨⟨2000, 3, 1, 0, 0, 0, 0⟩⟩
    cases hp : pred ⟨⟨2000, 3, 1, 0, 0, 0, 0⟩⟩
    · rfl
    · have : (⟨2000, 3, 1, 0, 0, 0, 0⟩ : PyDate).comp DTField.month = 2 := h3.mp hp
      simp [PyDate.comp] at this
  · exact C6_rectify_one_field.2 ⟨TimeValue.concrete ⟨1850, 1, 1, 0, 0, 0, 0⟩⟩
      (fun p h => by cases h)

/-- C7: `_parse_directory` appends a trailing separator when absent and
prefixes a leading separator only when the (trailing-slashed) relative
path is not a directory on disk: `"data"` becomes `"data/"` when
`os.path.isdir("data/")` holds and `"/data/"` otherwise, and a string
already starting and ending with separators is returned unchanged.
(The code probes `os.path.isdir` on the string with its trailing slash
already appended; POSIX `isdir` ignores the trailing slash, so this is
the probe for `"data"` being a directory.) -/
theorem C7_parse_directory :
    (∀ isdir : String → Bool, isdir "data/" = true →
        parse_directory isdir "data" = "data/")
    ∧ (∀ isdir : String → Bool, isdir "data/" = false →
        parse_directory isdir "data" = "/data/")
    ∧ (∀ (isdir : String → Bool) (d : String),
        pyStartsWith d "/" = true → pyEndsWith d "/" = true →
        parse_directory isdir d = d)
    ∧ (∀ (isdir : String → Bool) (d : String),
        pyEndsWith d "/" = true → pyStartsWith d "/" = false →
        parse_directory isdir d = if isdir d then d else "/" ++ d)
    ∧ (∀ (isdir : String → Bool) (d : String),
        pyEndsWith d "/" = false → pyStartsWith (d ++ "/") "/" = false →
        parse_directory isdir d = if isdir (d ++ "/") then d ++ "/" else "/" ++ (d ++ "/")) := by
  refine ⟨?_, ?_, ?_, ?_, ?_⟩
  · intro isdir h
    rw [show parse_directory isdir "data" =
        (if isdir "data/" then "data/" else "/" ++ "data/") from by
      simp [parse_directory, show pyEndsWith "data" "/" = false from by decide,
        show pyStartsWith "data/" "/" = false from by decide]]
    rw [h]
    decide
  · intro isdir h
    rw [show parse_directory isdir "data" =
        (if isdir "data/" then "data/" else "/" ++ "data/") from by
      simp [parse_directory, show pyEndsWith "data" "/" = false from by decide,
        show pyStartsWith "data/" "/" = false from by decide]]
    rw [h]
    decide
  · intro isdir d h1 h2
    simp [parse_directory, h1, h2]
  · intro isdir d h1 h2
    simp [parse_directory, h1, h2]
  · intro isdir d h1 h2
    simp [parse_directory, h1, h2]

/-- Witness for C7 at the claim's own example `"data"`, under a
filesystem where `data` exists, one where it does not, and on an
already-slashed string. -/
theorem C7_parse_directory_witness :
    parse_directory (fun s => s == "data/") "data" = "data/"
    ∧ parse_directory (fun _ => false) "data" = "/data/"
    ∧ parse_directory (fun _ => false) "/ds/" = "/ds/" :=
  ⟨C7_parse_directory.1 (fun s => s == "data/") (by decide),
   C7_parse_directory.2.1 (fun _ => false) rfl,
   C7_parse_directory.2.2.1 (fun _ => false) "/ds/" (by decide) (by decide)⟩

/-- C8: the chronological sort key of a loaded structure comes from the
first coordinate flagged as a time reference — its zero-point converted
to a calendar date, with a year/month/day-only fallback when the native
calendar is neither a `datetime` nor `datetime_compatible` — and a
structure with no time-reference coordinate yields no key. -/
theorem C8_sort_key :
    (∀ cube : Cube, (∀ c ∈ cube.coords, c.units.isTimeReference = false) →
        sort_by_earliest_date cube = none)
    ∧ (∀ (cube : Cube) (pre : List Coord) (tc : Coord) (post : List Coord),
        cube.coords = pre ++ tc :: post →
        (∀ c ∈ pre, c.units.isTimeReference = false) →
        tc.units.isTimeReference = true →
        sort_by_earliest_date cube = some (sort_by_date tc))
    ∧ (∀ tc : Coord, tc.units.num2dateZero.isDatetime = false →
        tc.units.num2dateZero.datetimeCompatible = false →
        sort_by_date tc = ⟨tc.units.num2dateZero.year, tc.units.num2dateZero.month,
          tc.units.num2dateZero.day, 0, 0, 0, 0⟩)
    ∧ (∀ tc : Coord, tc.units.num2dateZero.isDatetime = true ∨
        tc.units.num2dateZero.datetimeCompatible = true →
        sort_by_date tc = tc.units.num2dateZero.toPyDate) := by
  refine ⟨?_, ?_, ?_, ?_⟩
  · intro cube h
    rw [sort_by_earliest_date, List.find?_eq_none.mpr, Option.map_none']
    intro x hx
    simp [h x hx]
  · intro cube pre tc post hcoords hpre htc
    have hfind : List.find? (fun time_coord => time_coord.units.isTimeReference) (tc :: post) =
        some tc := by
      unfold List.find?
      rw [htc]
    rw [sort_by_earliest_date, hcoords, List.find?_append,
      List.find?_eq_none.mpr (fun x hx => by simp [hpre x hx]), hfind]
    rfl
  · intro tc h1 h2
    rw [sort_by_date]
    simp [h1, h2]
  · intro tc h
    rcases h with h | h
    · rw [sort_by_date]
      simp [h]
    · rw [sort_by_date]
      by_cases h1 : tc.units.num2dateZero.isDatetime <;> simp [h1, h]

/-- Witness for C8: a cube with only a non-time coordinate has no key; a
cube whose first time-reference coordinate sits behind a non-time one is
keyed by that coordinate; a non-convertible origin keeps only
year/month/day; a `datetime` origin keeps all fields. -/
theorem C8_sort_key_witness :
    sort_by_earliest_date ⟨some "t", [⟨⟨false, ⟨true, true, 9, 1, 1, 0, 0, 0, 0⟩⟩⟩]⟩ = none
    ∧ sort_by_earliest_date
        ⟨some "t", [⟨⟨false, ⟨true, true, 9, 1, 1, 0, 0, 0, 0⟩⟩⟩,
                    ⟨⟨true, ⟨true, true, 1850, 1, 1, 0, 0, 0, 0⟩⟩⟩]⟩ =
      some (sort_by_date ⟨⟨true, ⟨true, true, 1850, 1, 1, 0, 0, 0, 0⟩⟩⟩)
    ∧ sort_by_date ⟨⟨true, ⟨false, false, 1850, 2, 3, 4, 5, 6, 7⟩⟩⟩ = ⟨1850, 2, 3, 0, 0, 0, 0⟩
    ∧ sort_by_date ⟨⟨true, ⟨true, false, 1850, 2, 3, 4, 5, 6, 7⟩⟩⟩ = ⟨1850, 2, 3, 4, 5, 6, 7⟩ := by
  obtain ⟨h1, h2, h3, h4⟩ := C8_sort_key
  refine ⟨h1 _ ?_, h2 _ [⟨⟨false, ⟨true, true, 9, 1, 1, 0, 0, 0, 0⟩⟩⟩] _ [] rfl ?_ rfl, h3 _ rfl rfl, h4 _ (Or.inl rfl)⟩
  · intro c hc
    simp only [List.mem_singleton] at hc
    rw [hc]
  · intro c hc
    simp only [List.mem_singleton] at hc
    rw [hc]

/-- C10: `load_from_filelist` mutates the caller's `data_filelist` in
place through its `remove`-while-iterating filter loop: afterwards the
list is a sublist of the original in which every entry matching the
filetype is still present (with its multiplicity), and anything that was
removed did not match the filetype. -/
theorem C10_filelist_mutation (filetype : String) (data_filelist : List String) :
    List.Sublist (load_from_filelist_post filetype data_filelist) data_filelist
    ∧ (∀ x : String, pyEndsWith x filetype = true →
        (load_from_filelist_post filetype data_filelist).count x = data_filelist.count x)
    ∧ (∀ x ∈ data_filelist, x ∉ load_from_filelist_post filetype data_filelist →
        pyEndsWith x filetype = false) := by
  refine ⟨pyRemoveLoop_sublist filetype data_filelist 0,
    fun x hx => pyRemoveLoop_count_of_endsWith filetype x hx data_filelist 0, ?_⟩
  intro x hx hnot
  cases hm : pyEndsWith x filetype
  · rfl
  · exfalso
    have hc := pyRemoveLoop_count_of_endsWith filetype x hm data_filelist 0
    have hpos : 0 < data_filelist.count x := List.count_pos_iff.mpr hx
    rw [← hc] at hpos
    exact hnot (List.count_pos_iff.mp hpos)

/-- Witness for C10: from `["a.txt", "b.nc"]` with filetype `".nc"` the
call removes the non-matching `"a.txt"` and keeps `"b.nc"`. -/
theorem C10_filelist_mutation_witness :
    load_from_filelist_post ".nc" ["a.txt", "b.nc"] = ["b.nc"]
    ∧ List.Sublist (load_from_filelist_post ".nc" ["a.txt", "b.nc"]) ["a.txt", "b.nc"]
    ∧ (load_from_filelist_post ".nc" ["a.txt", "b.nc"]).count "b.nc" =
        (["a.txt", "b.nc"] : List String).count "b.nc" := by
  have hval : load_from_filelist_post ".nc" ["a.txt", "b.nc"] = ["b.nc"] := by
    rw [load_from_filelist_post, pyRemoveLoop_drop (by decide) (by decide),
      show (["a.txt", "b.nc"] : List String).erase ["a.txt", "b.nc"][0] = ["b.nc"] from by decide,
      pyRemoveLoop_stop (by decide)]
  obtain ⟨h1, h2, _⟩ := C10_filelist_mutation ".nc" ["a.txt", "b.nc"]
  exact ⟨hval, h1, h2 "b.nc" (by decide)⟩

/-- C3 (evaluation at the failing input): the filter loop of
`load_from_filelist` advances its index past the element that slides
into a removed entry's slot, so of `["a.txt", "b.txt", "c.nc"]` with
filetype `".nc"` only `"a.txt"` is removed; the non-matching `"b.txt"`
survives, is passed to the load call, and contributes a structure and a
path to the result. -/
theorem C3_filter_skips_entry :
    load_from_filelist_post ".nc" ["a.txt", "b.txt", "c.nc"] = ["b.txt", "c.nc"]
    ∧ pyEndsWith "b.txt" ".nc" = false
    ∧ load_from_filelist
        (fun _ => ⟨Except.ok ⟨some "air", [⟨⟨true, ⟨true, true, 1850, 1, 1, 0, 0, 0, 0⟩⟩⟩]⟩,
          [⟨some "air", [⟨⟨true, ⟨true, true, 1850, 1, 1, 0, 0, 0, 0⟩⟩⟩]⟩],
          Except.ok ⟨some "air", [⟨⟨true, ⟨true, true, 1850, 1, 1, 0, 0, 0, 0⟩⟩⟩]⟩, []⟩)
        ["a.txt", "b.txt", "c.nc"] ".nc" none =
      Except.ok ([Loaded.cube ⟨some "air", [⟨⟨true, ⟨true, true, 1850, 1, 1, 0, 0, 0, 0⟩⟩⟩]⟩,
          Loaded.cube ⟨some "air", [⟨⟨true, ⟨true, true, 1850, 1, 1, 0, 0, 0, 0⟩⟩⟩]⟩],
        ["b.txt", "c.nc"]) := by
  have hval : load_from_filelist_post ".nc" ["a.txt", "b.txt", "c.nc"] = ["b.txt", "c.nc"] := by
    rw [load_from_filelist_post, pyRemoveLoop_drop (by decide) (by decide),
      show (["a.txt", "b.txt", "c.nc"] : List String).erase ["a.txt", "b.txt", "c.nc"][0] =
        ["b.txt", "c.nc"] from by decide,
      pyRemoveLoop_keep (by decide) (by decide), pyRemoveLoop_stop (by decide)]
  refine ⟨hval, by decide, ?_⟩
  rw [load_from_filelist, show pyRemoveLoop ".nc" ["a.txt", "b.txt", "c.nc"] 0 =
    ["b.txt", "c.nc"] from hval]
  rfl

/-- C4: when the strict single-structure load of a file fails with a
reconciliation-type error (`MergeError` / `ConstraintMismatchError`), the
per-file step of `load_from_dir` recovers locally by the permissive raw
load — every validly named raw cube is recorded paired with that same
source path, name-invalid cubes are dropped, and no error is surfaced —
while a failure of any other kind propagates to the caller unchanged. -/
theorem C4_reconciliation_fallback (fe : FileEntry) (path : String) (e : PyErr)
    (hs : fe.strictNC = Except.error e) :
    (e.isReconciliation = true →
      load_one_nc fe path = Except.ok
        ((fe.rawNC.filter (fun cube => cube.standard_name.isSome)).map Loaded.cube,
         (fe.rawNC.filter (fun cube => cube.standard_name.isSome)).map (fun _ => path)))
    ∧ (e.isReconciliation = false → load_one_nc fe path = Except.error e) := by
  constructor
  · intro hr
    rw [load_one_nc, hs]
    simp [hr]
  · intro hr
    rw [load_one_nc, hs]
    simp [hr]

/-- Witness for C4: a `MergeError` file with one named and one unnamed
raw cube yields exactly the named cube paired with the file's path, and
an `IOError`-style failure propagates unchanged. -/
theorem C4_reconciliation_fallback_witness :
    load_one_nc ⟨Except.error PyErr.mergeError, [⟨some "air", []⟩, ⟨none, []⟩],
        Except.ok ⟨some "air", []⟩, []⟩ "/d/a.nc" =
      Except.ok ([Loaded.cube ⟨some "air", []⟩], ["/d/a.nc"])
    ∧ load_one_nc ⟨Except.error PyErr.ioError, [⟨some "air", []⟩],
        Except.ok ⟨some "air", []⟩, []⟩ "/d/a.nc" = Except.error PyErr.ioError := by
  constructor
  · have h := (C4_reconciliation_fallback ⟨Except.error PyErr.mergeError,
      [⟨some "air", []⟩, ⟨none, []⟩], Except.ok ⟨some "air", []⟩, []⟩ "/d/a.nc"
      PyErr.mergeError rfl).1 rfl
    rw [h]
    rfl
  · exact (C4_reconciliation_fallback ⟨Except.error PyErr.ioError, [⟨some "air", []⟩],
      Except.ok ⟨some "air", []⟩, []⟩ "/d/a.nc" PyErr.ioError rfl).2 rfl

/-- C9: with a constraint and a directory whose glob matches no file,
`load_from_dir` fails with `IndexError` from probing `cube_paths[0]`,
while the no-constraint variant returns the pair of empty lists for the
same directory. -/
theorem C9_empty_glob (fsys : FS) (directory filetype : String) (c : Constraint)
    (hglob : fsys.glob (parse_directory fsys.isdir directory ++ "*" ++ filetype) = []) :
    load_from_dir fsys directory filetype (some c) = Except.error PyErr.indexError
    ∧ load_from_dir fsys directory filetype none = Except.ok ([], []) := by
  constructor
  · rw [load_from_dir, hglob]
  · rw [load_from_dir, hglob]
    rfl

/-- Witness for C9 on a filesystem whose glob is empty everywhere. -/
theorem C9_empty_glob_witness :
    load_from_dir ⟨fun _ => false, fun _ => [],
        fun _ => ⟨Except.ok ⟨none, []⟩, [], Except.ok ⟨none, []⟩, []⟩⟩ "/d/" ".nc"
        (some ⟨TimeValue.concrete ⟨1850, 1, 1, 0, 0, 0, 0⟩⟩) =
      Except.error PyErr.indexError
    ∧ load_from_dir ⟨fun _ => false, fun _ => [],
        fun _ => ⟨Except.ok ⟨none, []⟩, [], Except.ok ⟨none, []⟩, []⟩⟩ "/d/" ".nc" none =
      Except.ok ([], []) :=
  C9_empty_glob ⟨fun _ => false, fun _ => [],
    fun _ => ⟨Except.ok ⟨none, []⟩, [], Except.ok ⟨none, []⟩, []⟩⟩ "/d/" ".nc"
    ⟨TimeValue.concrete ⟨1850, 1, 1, 0, 0, 0, 0⟩⟩ rfl

/-- The per-path step results under a run in which every strict load
succeeds: the loop contributes exactly one cube and one path per file. -/
theorem collect_ok_singles (one : String → Except PyErr (List Loaded × List String))
    (load : String → Cube) :
    ∀ l : List String,
      (∀ p ∈ l, one p = Except.ok ([Loaded.cube (load p)], [p])) →
      collect one l = Except.ok (l.map (fun p => Loaded.cube (load p)), l) := by
  intro l
  induction l with
  | nil => intro _; rfl
  | cons p ps ih =>
    intro h
    have h1 : one p = Except.ok ([Loaded.cube (load p)], [p]) := h p (List.mem_cons_self p ps)
    have h2 := ih (fun q hq => h q (List.mem_cons_of_mem p hq))
    simp only [collect, h1, h2]
    rfl

theorem collect_congr (one1 one2 : String → Except PyErr (List Loaded × List String)) :
    ∀ l : List String, (∀ p ∈ l, one1 p = one2 p) → collect one1 l = collect one2 l := by
  intro l
  induction l with
  | nil => intro _; rfl
  | cons p ps ih =>
    intro h
    have h1 : one1 p = one2 p := h p (List.mem_cons_self p ps)
    have h2 := ih (fun q hq => h q (List.mem_cons_of_mem p hq))
    simp only [collect, h1, h2]

/-- C1: for a directory whose matching files all strict-load successfully
(no reconciliation error) and all carry a defined chronological key on
which the structure key and the independently recomputed path key agree,
`load_from_dir` returns as many structures as files and as many paths,
the structures in non-decreasing order of origin date, and the two lists
parallel: the i-th path is the source whose strict load produced the
i-th structure. -/
theorem C1_load_from_dir_sorted_parallel
    (fsys : FS) (directory filetype : String) (paths : List String)
    (load : String → Cube)
    (hglob : fsys.glob (parse_directory fsys.isdir directory ++ "*" ++ filetype) = paths)
    (hstrict : ∀ p ∈ paths, (fsys.entries p).strictNC = Except.ok (load p))
    (hkey : ∀ p ∈ paths, ∃ d : PyDate, sort_by_earliest_date (load p) = some d ∧
        file_sort_by_earliest_date fsys.entries p = some d) :
    ∃ pairs : List (Loaded × String),
      load_from_dir fsys directory filetype none =
        Except.ok (pairs.map Prod.fst, pairs.map Prod.snd) ∧
      (pairs.map Prod.fst).length = paths.length ∧
      (pairs.map Prod.snd).length = paths.length ∧
      (pairs.map Prod.fst).Pairwise (fun a b => optLe a.keyD b.keyD = true) ∧
      ∀ pr ∈ pairs, pr.1 = Loaded.cube (load pr.2) := by
  have hone : ∀ p ∈ paths, load_one_nc (fsys.entries p) p =
      Except.ok ([Loaded.cube (load p)], [p]) := by
    intro p hp
    simp only [load_one_nc, hstrict p hp]
  have hcollect := collect_ok_singles (fun p => load_one_nc (fsys.entries p) p) load paths hone
  have hsortable : (paths.map (fun p => Loaded.cube (load p))).all Loaded.isCube = true := by
    simp [List.all_map, Function.comp, Loaded.isCube]
  refine ⟨pySort (fun a => Loaded.keyD a.1)
      (paths.map (fun p => (Loaded.cube (load p), p))), ?_, ?_, ?_, ?_, ?_⟩
  · simp only [load_from_dir, hglob, hcollect, finishSort, pySortLoaded, hsortable, if_pos]
    have hfst : pySort Loaded.keyD (paths.map (fun p => Loaded.cube (load p))) =
        (pySort (fun a : Loaded × String => Loaded.keyD a.1)
          (paths.map (fun p => (Loaded.cube (load p), p)))).map Prod.fst := by
      rw [show paths.map (fun p => Loaded.cube (load p)) =
          (paths.map (fun p => (Loaded.cube (load p), p))).map Prod.fst from by
        simp [List.map_map, Function.comp]]
      exact pySort_map Loaded.keyD Prod.fst _
    have hsnd : pySort (file_sort_by_earliest_date fsys.entries) paths =
        (pySort (fun a : Loaded × String => Loaded.keyD a.1)
          (paths.map (fun p => (Loaded.cube (load p), p)))).map Prod.snd := by
      rw [show paths = (paths.map (fun p => (Loaded.cube (load p), p))).map Prod.snd from by
        rw [List.map_map]
        exact (List.map_id' paths).symm]
      rw [show (((paths.map (fun p => (Loaded.cube (load p), p))).map Prod.snd).map
          (fun p => (Loaded.cube (load p), p))) = paths.map (fun p => (Loaded.cube (load p), p))
        from by simp [List.map_map, Function.comp]]
      rw [pySort_map (file_sort_by_earliest_date fsys.entries) Prod.snd
        (paths.map (fun p => (Loaded.cube (load p), p)))]
      rw [pySort_congr (fun a : Loaded × String => file_sort_by_earliest_date fsys.entries a.2)
        (fun a : Loaded × String => Loaded.keyD a.1) (paths.map (fun p => (Loaded.cube (load p), p)))]
      intro a ha
      rcases List.mem_map.mp ha with ⟨p, hp, rfl⟩
      rcases hkey p hp with ⟨d, hd1, hd2⟩
      simp only [Loaded.keyD, hd1, hd2]
    rw [hfst, hsnd]
  · have hperm := pySort_perm (fun a : Loaded × String => Loaded.keyD a.1)
      (paths.map (fun p => (Loaded.cube (load p), p)))
    simp [hperm.length_eq]
  · have hperm := pySort_perm (fun a : Loaded × String => Loaded.keyD a.1)
      (paths.map (fun p => (Loaded.cube (load p), p)))
    simp [hperm.length_eq]
  · have hpw := pySort_pairwise (fun a : Loaded × String => Loaded.keyD a.1)
      (paths.map (fun p => (Loaded.cube (load p), p)))
    exact List.pairwise_map.mpr hpw
  · intro pr hpr
    have hperm := pySort_perm (fun a : Loaded × String => Loaded.keyD a.1)
      (paths.map (fun p => (Loaded.cube (load p), p)))
    have hmem : pr ∈ paths.map (fun p => (Loaded.cube (load p), p)) := hperm.mem_iff.mp hpr
    rcases List.mem_map.mp hmem with ⟨p, _, rfl⟩
    rfl

/-- Witness for C1 on the spec's end-to-end scenario directory. -/
theorem C1_load_from_dir_sorted_parallel_witness :
    ∃ pairs : List (Loaded × String),
      load_from_dir envC1 "/ds/" ".nc" none =
        Except.ok (pairs.map Prod.fst, pairs.map Prod.snd) ∧
      (pairs.map Prod.fst).length = (["/ds/a.nc", "/ds/b.nc"] : List String).length ∧
      (pairs.map Prod.snd).length = (["/ds/a.nc", "/ds/b.nc"] : List String).length ∧
      (pairs.map Prod.fst).Pairwise (fun a b => optLe a.keyD b.keyD = true) ∧
      ∀ pr ∈ pairs, pr.1 = Loaded.cube (loadC1 pr.2) := by
  refine C1_load_from_dir_sorted_parallel envC1 "/ds/" ".nc" ["/ds/a.nc", "/ds/b.nc"]
    loadC1 rfl ?_ ?_
  · intro p hp
    fin_cases hp <;> rfl
  · intro p hp
    fin_cases hp
    · exact ⟨⟨2001, 1, 1, 0, 0, 0, 0⟩, rfl, rfl⟩
    · exact ⟨⟨1999, 6, 1, 0, 0, 0, 0⟩, rfl, rfl⟩

/-- C2 counterexample: on the same single-file set and the same
constraint, `load_from_dir` returns the fallback cube while
`load_from_filelist` appends the whole raw `CubeList` in its fallback
and then crashes sorting it (`AttributeError`), so the two results are
not structure-for-structure equal. -/
theorem C2_cx_constrained_fallback :
    load_from_dir envC2 "/ds/" ".nc" (some ⟨TimeValue.concrete ⟨1850, 1, 1, 0, 0, 0, 0⟩⟩) =
      Except.ok ([Loaded.cube cubeC2], ["a.nc"])
    ∧ load_from_filelist envC2.entries ["a.nc"] ".nc"
        (some ⟨TimeValue.concrete ⟨1850, 1, 1, 0, 0, 0, 0⟩⟩) =
      Except.error PyErr.attributeError := by
  constructor
  · rfl
  · rw [load_from_filelist, show pyRemoveLoop ".nc" ["a.nc"] 0 = ["a.nc"] from
      pyRemoveLoop_id_of_all_match ".nc" ["a.nc"] 0 (by intro x hx; fin_cases hx; decide)]
    rfl

/-- C2 (amended): loading the same file set — a directory globbing
exactly the given paths, all of which match the filetype — through
`load_from_dir` and through `load_from_filelist` gives equal results in
the no-constraint case; in the with-constraint case it does so provided
the path list is nonempty, the first path's unconstrained strict load
succeeds (the probe `load_from_dir` runs outside any `try`), and no
path's constrained strict load fails with a reconciliation error (whose
fallback the two functions implement differently). -/
theorem C2_dir_filelist_equiv
    (fsys : FS) (directory filetype : String) (files : List String) (c : Constraint)
    (hglob : fsys.glob (parse_directory fsys.isdir directory ++ "*" ++ filetype) = files)
    (hmatch : ∀ f ∈ files, pyEndsWith f filetype = true) :
    load_from_dir fsys directory filetype none =
      load_from_filelist fsys.entries files filetype none
    ∧ (∀ (p0 : String) (rest : List String), files = p0 :: rest →
        (∃ c0 : Cube, (fsys.entries p0).strictNC = Except.ok c0) →
        (∀ p ∈ files, ∀ e : PyErr, (fsys.entries p).strictC = Except.error e →
          e.isReconciliation = false) →
        load_from_dir fsys directory filetype (some c) =
          load_from_filelist fsys.entries files filetype (some c)) := by
  have hfilter : pyRemoveLoop filetype files 0 = files :=
    pyRemoveLoop_id_of_all_match filetype files 0 hmatch
  constructor
  · rw [load_from_filelist, hfilter]
    simp only [load_from_dir, hglob]
  · intro p0 rest hfiles hp0 hnofall
    rcases hp0 with ⟨c0, hc0⟩
    have hone : ∀ p ∈ files, load_one_c_list (fsys.entries p) p =
        load_one_c (fsys.entries p) p := by
      intro p hp
      cases hsc : (fsys.entries p).strictC with
      | ok cube => simp only [load_one_c_list, load_one_c, hsc]
      | error e =>
        have hr := hnofall p hp e hsc
        simp only [load_one_c_list, load_one_c, hsc, hr, Bool.false_eq_true, if_neg,
          not_false_iff]
    rw [load_from_filelist, hfilter,
      collect_congr (fun p => load_one_c_list (fsys.entries p) p)
        (fun p => load_one_c (fsys.entries p) p) files hone]
    simp only [load_from_dir, hglob, hfiles, hc0]

/-- Witness for C2 (amended): an environment where both the
no-constraint and the with-constraint equivalence apply. -/
theorem C2_dir_filelist_equiv_witness :
    load_from_dir envW "/ds/" ".nc" none =
      load_from_filelist envW.entries ["w.nc"] ".nc" none
    ∧ load_from_dir envW "/ds/" ".nc" (some ⟨TimeValue.concrete ⟨1970, 1, 1, 0, 0, 0, 0⟩⟩) =
      load_from_filelist envW.entries ["w.nc"] ".nc"
        (some ⟨TimeValue.concrete ⟨1970, 1, 1, 0, 0, 0, 0⟩⟩) := by
  obtain ⟨h1, h2⟩ := C2_dir_filelist_equiv envW "/ds/" ".nc" ["w.nc"]
    ⟨TimeValue.concrete ⟨1970, 1, 1, 0, 0, 0, 0⟩⟩ rfl
    (by intro f hf; fin_cases hf; decide)
  refine ⟨h1, h2 "w.nc" [] rfl ⟨cubeW, rfl⟩ ?_⟩
  intro p hp e he
  fin_cases hp
  have hcontra : Except.ok cubeW = Except.error e := he
  exact Except.noConfusion hcontra

end CubeHelper
